import Mathlib

/-
Verification of `scrape_reviews.py` against its specification.

The repository scrapes product reviews from G2 / Capterra / TrustRadius.
We give a shallow embedding of its pure core:
- the date helpers `parse_date_safe` / `within_range` / `iso`,
- the in-page extraction script of `extract_reviews_from_dom`
  (candidate filtering, per-field heuristics, in-pass deduplication),
- the incremental collection loop `scroll_and_collect`,
- the per-adapter normalization / date-range filtering of
  `scrape_g2`, `scrape_capterra`, `scrape_trustradius`,
- the orchestration in `run_scraper` / `main` (directory creation,
  source selection, exit codes).

External collaborators (the browser page, the `dateutil` parser, the
file system) are modelled as explicit parameters: the page's successive
DOM states become a function from round number to extraction input, the
date parser becomes a function `String → Option Date`, and the file
system a list of existing directories.
-/

namespace ScrapeReviews

/-- A calendar date, modelling the Python `datetime` values the script
compares; comparison is chronological (year, month, day lexicographic). -/
structure Date where
  year : Nat
  month : Nat
  day : Nat
deriving DecidableEq, Repr

/-- Chronological `<=` on dates, modelling Python `datetime.__le__`. -/
def dateLe (a b : Date) : Bool :=
  if a.year < b.year then true
  else if b.year < a.year then false
  else if a.month < b.month then true
  else if b.month < a.month then false
  else decide (a.day ≤ b.day)

/-- Source `within_range(dt, start, end)`: inclusive bounds check
`start <= dt <= end`. -/
def within_range (dt s e : Date) : Bool :=
  dateLe s dt && dateLe dt e

/-- Zero-padding to two digits, as `strftime` does for month and day. -/
def pad2 (n : Nat) : String :=
  if n < 10 then "0" ++ toString n else toString n

/-- Zero-padding to four digits, as `strftime` does for the year. -/
def pad4 (n : Nat) : String :=
  if n < 10 then "000" ++ toString n
  else if n < 100 then "00" ++ toString n
  else if n < 1000 then "0" ++ toString n
  else toString n

/-- Source `iso(d)`: renders `d.strftime("%Y-%m-%d")`. -/
def iso (d : Date) : String :=
  pad4 d.year ++ "-" ++ pad2 d.month ++ "-" ++ pad2 d.day

/-- Source `parse_date_safe`: wraps the external `dateutil` parser in
`try/except`, turning every parse failure into `None`.  The external
parser itself is the parameter `parse`; its failures are `none`, so the
wrapper is the identity on the modelled behaviour. -/
def parse_date_safe (parse : String → Option Date) (s : String) : Option Date :=
  parse s

/-! ### String primitives

Character-list implementations of the string operations the scripts use
(`trim`, `toLowerCase`, `split`, `join`, slicing), so that every
definition in the development evaluates by kernel reduction. -/

/-- Python/JS `s[:n]` / `s.slice(0, n)`. -/
def strTake (s : String) (n : Nat) : String :=
  String.mk (s.data.take n)

/-- JS `trim()` / Python `strip()`: strip whitespace from both ends. -/
def strTrim (s : String) : String :=
  String.mk
    ((((s.data.dropWhile Char.isWhitespace).reverse.dropWhile
        Char.isWhitespace).reverse))

/-- JS `toLowerCase()`. -/
def strToLower (s : String) : String :=
  String.mk (s.data.map Char.toLower)

/-- Splitting on one separator character, as JS `split('\n')` does. -/
def splitCharAux (sep : Char) : List Char → List Char → List String
  | [], cur => [String.mk cur.reverse]
  | c :: rest, cur =>
    if c = sep then String.mk cur.reverse :: splitCharAux sep rest []
    else splitCharAux sep rest (c :: cur)

/-- JS `s.split(sep)` for a one-character separator. -/
def splitChar (sep : Char) (s : String) : List String :=
  splitCharAux sep s.data []

/-- JS `arr.join(" ")`. -/
def joinSp : List String → String
  | [] => ""
  | [x] => x
  | x :: rest => x ++ " " ++ joinSp rest

/-- Decimal digits to a number; `none` on a non-digit. -/
def decDigitsGo : List Char → Nat → Option Nat
  | [], acc => some acc
  | c :: rest, acc =>
    if c.isDigit then decDigitsGo rest (acc * 10 + (c.toNat - 48)) else none

/-- A non-empty all-digit string to a number. -/
def strToNatOpt (s : String) : Option Nat :=
  match s.data with
  | [] => none
  | l => decDigitsGo l 0

/-- A concrete date parser used to instantiate the abstract `parse`
parameter in witnesses: accepts exactly ISO `YYYY-MM-DD` strings, the
canonical format `dateutil` always accepts. -/
def parseIso (s : String) : Option Date :=
  match splitChar '-' s with
  | [y, m, d] =>
    match strToNatOpt y, strToNatOpt m, strToNatOpt d with
    | some yn, some mn, some dn =>
      if y.length = 4 ∧ m.length = 2 ∧ d.length = 2 ∧
         1 ≤ mn ∧ mn ≤ 12 ∧ 1 ≤ dn ∧ dn ≤ 31
      then some ⟨yn, mn, dn⟩ else none
    | _, _, _ => none
  | _ => none

/-- Python `x or ""` applied to a dict lookup: a missing key or a `None`
value becomes the empty string (an empty string stays empty, which the
Python falsy `or` also yields). -/
def orEmpty : Option String → String
  | some s => s
  | none => ""

/-- A raw review dict as produced by the in-page extraction script and
consumed via `r.get(...)`: each field may be missing/None. -/
structure RawReview where
  title : Option String
  description : Option String
  date : Option String
  rating : Option String
  reviewer : Option String
deriving DecidableEq, Repr

/-- A normalized output record as built by the adapters: six string
fields, never null. -/
structure Review where
  title : String
  description : String
  date : String
  rating : String
  reviewer : String
  source : String
deriving DecidableEq, Repr

/-- The JSON object an output record serializes to: its keys in order,
each paired with its (string) value. -/
def reviewDict (r : Review) : List (String × String) :=
  [("title", r.title), ("description", r.description), ("date", r.date),
   ("rating", r.rating), ("reviewer", r.reviewer), ("source", r.source)]

/-! ## Record extractor (`extract_reviews_from_dom`, lines 52-129)

The in-page script runs against the rendered DOM.  A DOM node enters the
model as the data the script reads from it: its visible text and the
results of the `querySelector` calls used for each field. -/

/-- One element of the broad candidate query
`querySelectorAll('[class*="review"], ..., article, div')`, carrying the
data the extraction script reads from it. -/
structure RawNode where
  /-- `n.innerText` (empty string when the property is absent, as the
  script's `n.innerText || ""` yields). -/
  innerText : String
  /-- `innerText` of `querySelector('h1, h2, h3, .review-title, [class*="title"]')`. -/
  titleQ : Option String
  /-- `innerText` of
  `querySelector('.review-text, .review-body, [class*="comment"], [class*="content"], p')`. -/
  bodyQ : Option String
  /-- For `querySelector('time')` or `querySelector('[class*="date"], [class*="posted"]')`:
  the `datetime` attribute (if present) and the element's `innerText`. -/
  timeQ : Option (Option String × String)
  /-- For `querySelector('[aria-label*="star"], [class*="rating"], [class*="stars"]')`:
  the `aria-label` attribute (if present) and the element's `innerText`. -/
  ratingQ : Option (Option String × String)
  /-- `innerText` of `querySelector('[class*="author"], [class*="user"], [class*="reviewer"]')`. -/
  reviewerQ : Option String
deriving DecidableEq, Repr

/-- Is `pat` an initial segment of `l` (character-wise). -/
def listPrefixOf : List Char → List Char → Bool
  | [], _ => true
  | _ :: _, [] => false
  | a :: as, b :: bs => a == b && listPrefixOf as bs

/-- Does `pat` occur as a contiguous run inside `l` — JS
`String.prototype.includes`. -/
def listInfixOf (pat : List Char) : List Char → Bool
  | [] => pat.isEmpty
  | c :: rest => listPrefixOf pat (c :: rest) || listInfixOf pat rest

/-- JS `s.includes(pat)`. -/
def containsTok (s pat : String) : Bool :=
  listInfixOf pat.data s.data

/-- A regex word character (`\w`): alphanumeric or underscore. -/
def isWordChar (c : Char) : Bool :=
  c.isAlphanum || c == '_'

/-- A `\b` boundary holds after a word character at this position:
end of input or a non-word character. -/
def boundaryAfter : List Char → Bool
  | [] => true
  | c :: _ => !(isWordChar c)

/-- Does `\d{4,4}-\d{2}-\d{2}\b` match at the head of the input. -/
def isoAt : List Char → Bool
  | d1 :: d2 :: d3 :: d4 :: h1 :: d5 :: d6 :: h2 :: d7 :: d8 :: rest =>
    d1.isDigit && d2.isDigit && d3.isDigit && d4.isDigit && h1 == '-' &&
    d5.isDigit && d6.isDigit && h2 == '-' && d7.isDigit && d8.isDigit &&
    boundaryAfter rest
  | _ => false

/-- Scan for `\b\d{4,4}-\d{2}-\d{2}\b` anywhere; `prevWord` records
whether the previous character was a word character (so a `\b` boundary
precedes the current position exactly when it is false, the match
starting with a digit). -/
def scanIso (prevWord : Bool) : List Char → Bool
  | [] => false
  | c :: rest => (!prevWord && isoAt (c :: rest)) || scanIso (isWordChar c) rest

/-- `low.match(/\b\d{4,4}-\d{2}-\d{2}\b/)` as a Boolean. -/
def hasIsoDateTok (s : String) : Bool :=
  scanIso false s.data

/-- Does `(days|months|years)\b` match at the head of the input. -/
def unitAt (l : List Char) : Bool :=
  (listPrefixOf "days".data l && boundaryAfter (l.drop 4)) ||
  (listPrefixOf "months".data l && boundaryAfter (l.drop 6)) ||
  (listPrefixOf "years".data l && boundaryAfter (l.drop 5))

/-- After at least one whitespace character: consume further whitespace,
then require a unit word (`\s*(days|months|years)\b`). -/
def wsUnitStar : List Char → Bool
  | [] => false
  | c :: rest => if c.isWhitespace then wsUnitStar rest else unitAt (c :: rest)

/-- `\s+(days|months|years)\b` at the head of the input. -/
def wsUnit : List Char → Bool
  | [] => false
  | c :: rest => c.isWhitespace && wsUnitStar rest

/-- `\d{1,2}\s+(days|months|years)\b` at the head of the input. -/
def relAt : List Char → Bool
  | [] => false
  | c :: rest =>
    c.isDigit &&
    (wsUnit rest ||
      (match rest with
       | c2 :: rest2 => c2.isDigit && wsUnit rest2
       | [] => false))

/-- Scan for `\b\d{1,2}\s+(days|months|years)\b` anywhere. -/
def scanRel (prevWord : Bool) : List Char → Bool
  | [] => false
  | c :: rest => (!prevWord && relAt (c :: rest)) || scanRel (isWordChar c) rest

/-- `low.match(/\b\d{1,2}\s+(days|months|years)\b/)` as a Boolean. -/
def hasRelTimeTok (s : String) : Bool :=
  scanRel false s.data

/-- The review-signal heuristic (line 65): the lowercased text contains
"review" or "stars", or a date-like token, or a relative-time token. -/
def hasReviewSignal (txt : String) : Bool :=
  let low := strToLower txt
  containsTok low "review" || containsTok low "stars" ||
  hasIsoDateTok low || hasRelTimeTok low

/-- Candidate filter (lines 60-66): skip nodes with fewer than 50
characters of visible text, then require a review signal. -/
def candidateOk (n : RawNode) : Bool :=
  if n.innerText.length < 50 then false
  else hasReviewSignal n.innerText

/-- JS `attr || txt`: `getAttribute` yields `null` (modelled `none`) when
the attribute is absent, and the empty string is falsy, so both fall
back to the element text. -/
def jsOr (attr : Option String) (txt : String) : String :=
  match attr with
  | some a => if a = "" then txt else a
  | none => txt

/-- The body-fallback line split (line 87):
`c.innerText.trim().split('\n').map(s=>s.trim()).filter(Boolean)`. -/
def splitLines (s : String) : List String :=
  ((splitChar '\n' (strTrim s)).map strTrim).filter (fun x => x ≠ "")

/-- Field extraction for one candidate node (lines 72-106). -/
def extractFields (n : RawNode) : RawReview :=
  let title0 := match n.titleQ with
    | some h => strTrim h
    | none => ""
  let tb : String × String :=
    match n.bodyQ with
    | some b => (title0, strTrim b)
    | none =>
      let all := splitLines n.innerText
      if 2 ≤ all.length then
        (if title0 = "" then all.headD "" else title0,
         joinSp (all.drop 1))
      else (title0, strTrim n.innerText)
  let date := match n.timeQ with
    | some (attr, txt) => jsOr attr (strTrim txt)
    | none => ""
  let rating := match n.ratingQ with
    | some (attr, txt) => jsOr attr (strTrim txt)
    | none => ""
  let reviewer := match n.reviewerQ with
    | some v => strTrim v
    | none => ""
  { title := some tb.1, description := some tb.2, date := some date,
    rating := some rating, reviewer := some reviewer }

/-- In-pass dedup key (line 109):
`(title + '|' + body.slice(0,80)).slice(0,200)`. -/
def recKey (r : RawReview) : String :=
  strTake (orEmpty r.title ++ "|" ++ strTake (orEmpty r.description) 80) 200

/-- One iteration of the extraction script's results loop (lines 71-120):
a candidate whose key was already seen is skipped, otherwise its record
is appended and its key remembered. -/
def extractStep (acc : List RawReview × List String) (n : RawNode) :
    List RawReview × List String :=
  let f := extractFields n
  let k := recKey f
  if k ∈ acc.2 then acc else (acc.1 ++ [f], k :: acc.2)

/-- Source `extract_reviews_from_dom`, applied to the current DOM's node
list: filter candidates, extract fields, dedup within the pass. -/
def extract_reviews_from_dom (nodes : List RawNode) : List RawReview :=
  ((nodes.filter candidateOk).foldl extractStep ([], [])).1

/-! ## Incremental collector (`scroll_and_collect`, lines 135-178)

The page's successive DOM states are external: `found i` is the list of
records `extract_reviews_from_dom` returns in round `i`.  The click /
scroll / wait actions between extractions only affect that external
state, so they have no counterpart in the pure model. -/

/-- Cross-iteration dedup key (line 149):
`r.get('title','') + '|' + (r.get('description','') or "")[:120]`. -/
def collectKey (r : RawReview) : String :=
  orEmpty r.title ++ "|" ++ strTake (orEmpty r.description) 120

/-- One merge step of the collector's inner loop (lines 148-153): a
record whose key was already seen is dropped, otherwise it is appended
and `new_count` is incremented. -/
def mergeOne (acc : List RawReview × List String × Nat) (r : RawReview) :
    List RawReview × List String × Nat :=
  let key := collectKey r
  if key ∈ acc.2.1 then acc
  else (acc.1 ++ [r], key :: acc.2.1, acc.2.2 + 1)

/-- Merging one round's extraction output into the accumulated state;
returns (collected, seen_keys, new_count). -/
def mergeRound (found : List RawReview) (col : List RawReview)
    (seen : List String) : List RawReview × List String × Nat :=
  found.foldl mergeOne (col, seen, 0)

/-- The `for i in range(max_scrolls)` loop of `scroll_and_collect`,
with the break check `len(collected) == last_len and new_count == 0`
at the end of each iteration.  Also counts the number of loop
iterations actually executed. -/
def scrollAux (found : Nat → List RawReview) :
    Nat → Nat → List RawReview → List String → Nat → List RawReview × Nat
  | _, 0, col, _, _ => (col, 0)
  | i, fuel + 1, col, seen, lastLen =>
    let m := mergeRound (found i) col seen
    if m.1.length = lastLen ∧ m.2.2 = 0 then (m.1, 1)
    else
      let r := scrollAux found (i + 1) fuel m.1 m.2.1 m.1.length
      (r.1, r.2 + 1)

/-- Source `scroll_and_collect(page, max_scrolls=40, wait_ms=800)`:
the collected list (waits have no effect on the pure state). -/
def scroll_and_collect (found : Nat → List RawReview)
    (max_scrolls : Nat := 40) : List RawReview :=
  (scrollAux found 0 max_scrolls [] [] 0).1

/-- Number of loop iterations `scroll_and_collect` executes. -/
def scroll_rounds (found : Nat → List RawReview)
    (max_scrolls : Nat := 40) : Nat :=
  (scrollAux found 0 max_scrolls [] [] 0).2

/-! ## Source adapters (lines 180-303)

Navigation opens external pages; its success is the environment's
business.  The normalization / date-range filtering that follows the
collection is pure and is modelled per record. -/

/-- G2 normalization and first-pass filtering, one record
(lines 192-218): resolve a date from the raw `date` field, falling back
to the first 50 characters of the description; keep the record when the
date is unresolved, otherwise keep it exactly when the date is in
range. -/
def g2ResolvedDate (parse : String → Option Date) (r : RawReview) :
    Option Date :=
  match parse_date_safe parse (orEmpty r.date) with
  | some d => some d
  | none => parse_date_safe parse (strTake (orEmpty r.description) 50)

/-- The record built and conditionally appended by the first G2 loop
(lines 206-218); `none` when the record is dropped. -/
def g2NormalizeOne (parse : String → Option Date) (s e : Date)
    (r : RawReview) : Option Review :=
  match g2ResolvedDate parse r with
  | none =>
    some { title := orEmpty r.title, description := orEmpty r.description,
           date := orEmpty r.date, rating := orEmpty r.rating,
           reviewer := orEmpty r.reviewer, source := "G2" }
  | some d =>
    if within_range d s e then
      some { title := orEmpty r.title, description := orEmpty r.description,
             date := iso d, rating := orEmpty r.rating,
             reviewer := orEmpty r.reviewer, source := "G2" }
    else none

/-- The second G2 filter pass (lines 221-231): re-parse the normalized
date string; keep the record when the field is empty or unparseable,
or when the parsed date is in range. -/
def g2SecondPass (parse : String → Option Date) (s e : Date)
    (r : Review) : Bool :=
  if r.date = "" then true
  else
    match parse_date_safe parse r.date with
    | some p => within_range p s e
    | none => true

/-- The normalization/filter portion of `scrape_g2` (lines 190-232). -/
def scrape_g2_filter (parse : String → Option Date) (s e : Date)
    (rs : List RawReview) : List Review :=
  (rs.filterMap (g2NormalizeOne parse s e)).filter (g2SecondPass parse s e)

/-- The record built and conditionally appended by the Capterra loop
(lines 259-275); `none` when the record is dropped. -/
def capterraNormalizeOne (parse : String → Option Date) (s e : Date)
    (r : RawReview) : Option Review :=
  let dt := parse_date_safe parse (orEmpty r.date)
  let rCopy : Review :=
    { title := orEmpty r.title, description := orEmpty r.description,
      date := match dt with | some d => iso d | none => orEmpty r.date,
      rating := orEmpty r.rating, reviewer := orEmpty r.reviewer,
      source := "Capterra" }
  match dt with
  | some d => if within_range d s e then some rCopy else none
  | none => some rCopy

/-- The normalization/filter portion of `scrape_capterra`
(lines 258-276). -/
def scrape_capterra_filter (parse : String → Option Date) (s e : Date)
    (rs : List RawReview) : List Review :=
  rs.filterMap (capterraNormalizeOne parse s e)

/-- The record built and conditionally appended by the TrustRadius loop
(lines 288-302); `none` when the record is dropped. -/
def trustradiusNormalizeOne (parse : String → Option Date) (s e : Date)
    (r : RawReview) : Option Review :=
  let dt := parse_date_safe parse (orEmpty r.date)
  let rCopy : Review :=
    { title := orEmpty r.title, description := orEmpty r.description,
      date := match dt with | some d => iso d | none => orEmpty r.date,
      rating := orEmpty r.rating, reviewer := orEmpty r.reviewer,
      source := "TrustRadius" }
  match dt with
  | some d => if within_range d s e then some rCopy else none
  | none => some rCopy

/-- The normalization/filter portion of `scrape_trustradius`
(lines 287-303). -/
def scrape_trustradius_filter (parse : String → Option Date) (s e : Date)
    (rs : List RawReview) : List Review :=
  rs.filterMap (trustradiusNormalizeOne parse s e)

/-! ## Orchestration (`run_scraper`, `main`, lines 308-364) -/

/-- The external collaborators of one run: the date parser, which URLs
navigation succeeds on, the per-round extraction results delivered by
the live page, and the set of directories existing on disk. -/
structure Env where
  parse : String → Option Date
  navOk : String → Bool
  found : Nat → List RawReview
  fs : List (List String)

/-- G2 reviews URL (line 181). -/
def g2_url (slug : String) : String :=
  "https://www.g2.com/products/" ++ slug ++ "/reviews"

/-- TrustRadius reviews URL (line 279). -/
def trustradius_url (slug : String) : String :=
  "https://www.trustradius.com/products/" ++ slug ++ "/reviews"

/-- Capterra URL variants tried in order (lines 238-242). -/
def capterra_urls (slug : String) : List String :=
  ["https://www.capterra.com/p/" ++ slug ++ "/reviews/",
   "https://www.capterra.com/search?q=" ++ slug,
   "https://www.capterra.com/p/" ++ slug ++ "/"]

/-- Source `scrape_g2`: navigation failure raises; otherwise collect and
filter. -/
def scrape_g2 (env : Env) (slug : String) (s e : Date) :
    Except String (List Review) :=
  if env.navOk (g2_url slug) then
    .ok (scrape_g2_filter env.parse s e (scroll_and_collect env.found))
  else .error "Could not open G2 page"

/-- Source `scrape_capterra`: the URL variants are tried in order and
the first navigable one wins; all failing raises. -/
def scrape_capterra (env : Env) (slug : String) (s e : Date) :
    Except String (List Review) :=
  if (capterra_urls slug).any env.navOk then
    .ok (scrape_capterra_filter env.parse s e (scroll_and_collect env.found))
  else .error "Could not open Capterra page for provided slug."

/-- Source `scrape_trustradius`: navigation failure raises; otherwise
collect and filter. -/
def scrape_trustradius (env : Env) (slug : String) (s e : Date) :
    Except String (List Review) :=
  if env.navOk (trustradius_url slug) then
    .ok (scrape_trustradius_filter env.parse s e (scroll_and_collect env.found))
  else .error "Could not open TrustRadius page"

/-- The non-root initial segments of a directory path: the directories
`mkdir(parents=True)` guarantees to exist afterwards. -/
def pathInits (dir : List String) : List (List String) :=
  dir.inits.filter (fun p => p ≠ [])

/-- Model of `pathlib.Path.mkdir(parents, exist_ok)` over a file system
given as the list of existing directories (each a list of path
components): an existing target errors unless `exist_ok`; a missing
parent errors unless `parents`, which creates every missing initial
segment. -/
def mkdirModel (parents existOk : Bool) (fs : List (List String))
    (dir : List String) : Except Unit (List (List String)) :=
  if dir ∈ fs then
    if existOk then .ok fs else .error ()
  else if parents then
    .ok ((pathInits dir).foldl (fun acc p => if p ∈ acc then acc else p :: acc) fs)
  else if dir.dropLast ∈ fs ∨ dir.dropLast = [] then .ok (dir :: fs)
  else .error ()

/-- Source `run_scraper` (lines 308-346): validate the dates, select the
adapter by lowercased source name, run it, then create the output
directory with `mkdir(parents=True, exist_ok=True)` and write the JSON
file.  Every raised exception becomes `.error`; success returns the
resulting file system and the saved records. -/
def run_scraper (env : Env) (company startS endS source : String)
    (outdir : List String) : Except String (List (List String) × List Review) :=
  match env.parse startS, env.parse endS with
  | some s, some e =>
    if dateLe s e then
      let sl := strToLower source
      let scraped : Except String (List Review) :=
        if sl = "g2" then scrape_g2 env company s e
        else if sl = "capterra" then scrape_capterra env company s e
        else if sl = "trustradius" ∨ sl = "trust radius" ∨ sl = "trust-radius" then
          scrape_trustradius env company s e
        else .error "Unsupported source. Choose g2, capterra or trustradius."
      match scraped with
      | .ok reviews =>
        match mkdirModel true true env.fs outdir with
        | .ok fs2 => .ok (fs2, reviews)
        | .error _ => .error "mkdir failed"
      | .error msg => .error msg
    else .error "Start date must be <= end date."
  | _, _ => .error "Invalid date(s)"

/-- The values accepted by the CLI's `--source` argument (line 356). -/
def cli_sources : List String := ["g2", "capterra", "trustradius"]

/-- Observable outcome of one process invocation: the exit status and
whether an output file was written. -/
structure RunOutcome where
  exitCode : Nat
  wrote : Bool
deriving DecidableEq, Repr

/-- Source `main` (lines 351-364): `argparse` validates `--source`
against its `choices` list and, on an invalid choice, terminates the
process itself with exit status 2 before `run_scraper` ever runs (the
documented `argparse` error behaviour).  Otherwise any exception raised
by `run_scraper` is caught and turned into exit status 1 with no file
written, and a completed run exits 0 having written the output file. -/
def main_model (env : Env) (company startS endS source : String)
    (outdir : List String) : RunOutcome :=
  if source ∈ cli_sources then
    match run_scraper env company startS endS source outdir with
    | .ok _ => ⟨0, true⟩
    | .error _ => ⟨1, false⟩
  else ⟨2, false⟩

/-! ### Concrete sample data

Small concrete inputs used to exercise the theorems below. -/

/-- Start of the sample date range. -/
def dStart : Date := ⟨2024, 1, 1⟩

/-- End of the sample date range. -/
def dEnd : Date := ⟨2024, 6, 30⟩

/-- A collected record whose raw date parses and lies in the range. -/
def sampleDated : RawReview :=
  { title := some "T", description := some "Works well",
    date := some "2024-03-15", rating := some "5", reviewer := some "A" }

/-- A collected record with an unparseable raw date and an unparseable
description prefix. -/
def sampleBad : RawReview :=
  { title := some "T", description := some "no date here",
    date := some "gibberish", rating := none, reviewer := none }

/-- A candidate node whose visible text is exactly 49 characters. -/
def node49 : RawNode :=
  { innerText := "a great review with text of exactly forty-nine ch",
    titleQ := none, bodyQ := none, timeQ := none, ratingQ := none,
    reviewerQ := none }

/-- A candidate node that passes the extraction filter. -/
def nodeA : RawNode :=
  { innerText := "Great product review with lots of text to exceed fifty chars",
    titleQ := some " Great product ", bodyQ := some "It works well.",
    timeQ := some (some "2024-03-15", "March 15"), ratingQ := none,
    reviewerQ := some "Alice" }

/-- A second candidate node extracting the same title and body as
`nodeA` but a different reviewer, hence the same dedup key. -/
def nodeB : RawNode :=
  { innerText := "Great product review with lots of text to exceed fifty chars",
    titleQ := some "Great product", bodyQ := some " It works well. ",
    timeQ := none, ratingQ := none, reviewerQ := some "Bob" }

/-- An environment where every navigation succeeds, every extraction
round is empty, and the disk is empty. -/
def envOk : Env :=
  { parse := parseIso, navOk := fun _ => true, found := fun _ => [], fs := [] }

/-- The record the Capterra adapter produces from `sampleDated`. -/
def capOut : Review :=
  { title := "T", description := "Works well", date := "2024-03-15",
    rating := "5", reviewer := "A", source := "Capterra" }

/-! ### Collector lemmas -/

theorem mergeOne_newCount_le (acc : List RawReview × List String × Nat)
    (r : RawReview) : acc.2.2 ≤ (mergeOne acc r).2.2 := by
  by_cases h : collectKey r ∈ acc.2.1 <;> simp [mergeOne, h]

theorem mergeFold_newCount_le (rs : List RawReview) :
    ∀ acc : List RawReview × List String × Nat,
      acc.2.2 ≤ (rs.foldl mergeOne acc).2.2 := by
  induction rs with
  | nil => intro acc; exact Nat.le_refl _
  | cons r rs ih =>
    intro acc
    exact Nat.le_trans (mergeOne_newCount_le acc r) (ih (mergeOne acc r))

theorem mergeFold_grows (rs : List RawReview) :
    ∀ acc : List RawReview × List String × Nat,
      ∃ t, (rs.foldl mergeOne acc).1 = acc.1 ++ t := by
  induction rs with
  | nil => intro acc; exact ⟨[], by simp⟩
  | cons r rs ih =>
    intro acc
    rw [List.foldl_cons]
    by_cases h : collectKey r ∈ acc.2.1
    · have hstep : mergeOne acc r = acc := by simp [mergeOne, h]
      rw [hstep]; exact ih acc
    · have hstep : mergeOne acc r =
          (acc.1 ++ [r], collectKey r :: acc.2.1, acc.2.2 + 1) := by
        simp [mergeOne, h]
      rw [hstep]
      rcases ih (acc.1 ++ [r], collectKey r :: acc.2.1, acc.2.2 + 1) with ⟨t, ht⟩
      exact ⟨r :: t, by simpa using ht⟩

theorem mergeFold_zero_fixed (rs : List RawReview) :
    ∀ acc : List RawReview × List String × Nat,
      (rs.foldl mergeOne acc).2.2 = acc.2.2 →
      (rs.foldl mergeOne acc).1 = acc.1 ∧
      (rs.foldl mergeOne acc).2.1 = acc.2.1 := by
  induction rs with
  | nil => intro acc _; exact ⟨rfl, rfl⟩
  | cons r rs ih =>
    intro acc hz
    by_cases h : collectKey r ∈ acc.2.1
    · have hstep : mergeOne acc r = acc := by simp [mergeOne, h]
      have := ih acc (by simpa [List.foldl_cons, hstep] using hz)
      simpa [List.foldl_cons, hstep] using this
    · exfalso
      have hstep : (mergeOne acc r).2.2 = acc.2.2 + 1 := by simp [mergeOne, h]
      have hle := mergeFold_newCount_le rs (mergeOne acc r)
      rw [hstep] at hle
      have : acc.2.2 + 1 ≤ acc.2.2 := by
        calc acc.2.2 + 1 ≤ ((r :: rs).foldl mergeOne acc).2.2 := by
              simpa [List.foldl_cons] using hle
          _ = acc.2.2 := hz
      exact Nat.not_succ_le_self _ this

theorem mergeRound_zero_fixed (found col : List RawReview) (seen : List String)
    (hz : (mergeRound found col seen).2.2 = 0) :
    (mergeRound found col seen).1 = col ∧
    (mergeRound found col seen).2.1 = seen :=
  mergeFold_zero_fixed found (col, seen, 0) hz

theorem scrollAux_rounds_le (found : Nat → List RawReview) :
    ∀ fuel i col seen lastLen,
      (scrollAux found i fuel col seen lastLen).2 ≤ fuel := by
  intro fuel
  induction fuel with
  | zero => intro i col seen lastLen; simp [scrollAux]
  | succ fuel ih =>
    intro i col seen lastLen
    by_cases hc : (mergeRound (found i) col seen).1.length = lastLen ∧
        (mergeRound (found i) col seen).2.2 = 0
    · simp [scrollAux, hc]
    · simp only [scrollAux, if_neg hc]
      exact Nat.succ_le_succ (ih _ _ _ _)

theorem scrollAux_grows (found : Nat → List RawReview) :
    ∀ fuel i col seen lastLen,
      ∃ t, (scrollAux found i fuel col seen lastLen).1 = col ++ t := by
  intro fuel
  induction fuel with
  | zero => intro i col seen lastLen; exact ⟨[], by simp [scrollAux]⟩
  | succ fuel ih =>
    intro i col seen lastLen
    rcases mergeFold_grows (found i) (col, seen, 0) with ⟨t1, ht1⟩
    have ht1m : (mergeRound (found i) col seen).1 = col ++ t1 := ht1
    by_cases hc : (mergeRound (found i) col seen).1.length = lastLen ∧
        (mergeRound (found i) col seen).2.2 = 0
    · exact ⟨t1, by simp only [scrollAux, if_pos hc]; exact ht1m⟩
    · rcases ih (i + 1) (mergeRound (found i) col seen).1
        (mergeRound (found i) col seen).2.1
        (mergeRound (found i) col seen).1.length with ⟨t2, ht2⟩
      refine ⟨t1 ++ t2, ?_⟩
      simp only [scrollAux, if_neg hc]
      rw [ht2, ht1m, List.append_assoc]

/-- C4 helper at the top level. -/
theorem scroll_rounds_le (found : Nat → List RawReview) (m : Nat) :
    scroll_rounds found m ≤ m :=
  scrollAux_rounds_le found m 0 [] [] 0

theorem scrollAux_stagnation (found : Nat → List RawReview)
    (i fuel : Nat) (col : List RawReview) (seen : List String)
    (hz : (mergeRound (found i) col seen).2.2 = 0) :
    scrollAux found i (fuel + 1) col seen col.length = (col, 1) := by
  rcases mergeRound_zero_fixed (found i) col seen hz with ⟨hc, _⟩
  simp [scrollAux, hc, hz]

/-! ### Extractor dedup lemmas -/

theorem extractFold_countP_of_seen (k : String) :
    ∀ (cs : List RawNode) (acc : List RawReview × List String), k ∈ acc.2 →
      ((cs.foldl extractStep acc).1.countP fun r => decide (recKey r = k)) =
        acc.1.countP fun r => decide (recKey r = k) := by
  intro cs
  induction cs with
  | nil => intro acc _; rfl
  | cons c cs ih =>
    intro acc hk
    rw [List.foldl_cons]
    by_cases h : recKey (extractFields c) ∈ acc.2
    · rw [show extractStep acc c = acc from by simp [extractStep, h]]
      exact ih acc hk
    · rw [show extractStep acc c =
          (acc.1 ++ [extractFields c], recKey (extractFields c) :: acc.2) from by
        simp [extractStep, h]]
      rw [ih _ (List.mem_cons_of_mem _ hk)]
      have hne : ¬(recKey (extractFields c) = k) := fun he => h (he ▸ hk)
      simp [List.countP_append, List.countP_cons, hne]

theorem extractFold_countP_of_unseen (k : String) :
    ∀ (cs : List RawNode) (acc : List RawReview × List String), k ∉ acc.2 →
      ((cs.foldl extractStep acc).1.countP fun r => decide (recKey r = k)) =
        (acc.1.countP fun r => decide (recKey r = k)) +
          (if cs.any (fun c => decide (recKey (extractFields c) = k)) then 1 else 0) := by
  intro cs
  induction cs with
  | nil => intro acc _; simp
  | cons c cs ih =>
    intro acc hk
    rw [List.foldl_cons]
    by_cases hck : recKey (extractFields c) = k
    · have h : recKey (extractFields c) ∉ acc.2 := by rw [hck]; exact hk
      rw [show extractStep acc c =
          (acc.1 ++ [extractFields c], recKey (extractFields c) :: acc.2) from by
        simp [extractStep, h]]
      have hk2 : k ∈ recKey (extractFields c) :: acc.2 := hck ▸ List.mem_cons_self _ _
      rw [extractFold_countP_of_seen k cs _ hk2]
      simp [List.countP_append, List.countP_cons, hck]
    · by_cases h : recKey (extractFields c) ∈ acc.2
      · rw [show extractStep acc c = acc from by simp [extractStep, h]]
        rw [ih acc hk]
        simp [List.any_cons, hck]
      · rw [show extractStep acc c =
            (acc.1 ++ [extractFields c], recKey (extractFields c) :: acc.2) from by
          simp [extractStep, h]]
        have hk2 : k ∉ recKey (extractFields c) :: acc.2 := by
          intro hmem
          rcases List.mem_cons.mp hmem with h1 | h1
          · exact hck h1.symm
          · exact hk h1
        rw [ih _ hk2]
        simp [List.countP_append, List.countP_cons, List.any_cons, hck]

theorem extractFold_find?_of_seen (k : String) :
    ∀ (cs : List RawNode) (acc : List RawReview × List String), k ∈ acc.2 →
      ((cs.foldl extractStep acc).1.find? fun r => decide (recKey r = k)) =
        acc.1.find? fun r => decide (recKey r = k) := by
  intro cs
  induction cs with
  | nil => intro acc _; rfl
  | cons c cs ih =>
    intro acc hk
    rw [List.foldl_cons]
    by_cases h : recKey (extractFields c) ∈ acc.2
    · rw [show extractStep acc c = acc from by simp [extractStep, h]]
      exact ih acc hk
    · rw [show extractStep acc c =
          (acc.1 ++ [extractFields c], recKey (extractFields c) :: acc.2) from by
        simp [extractStep, h]]
      rw [ih _ (List.mem_cons_of_mem _ hk)]
      have hne : ¬(recKey (extractFields c) = k) := fun he => h (he ▸ hk)
      simp [List.find?_append, List.find?_cons, hne, Option.or]
      cases acc.1.find? fun r => decide (recKey r = k) <;> simp

theorem extractFold_find?_of_unseen (k : String) :
    ∀ (cs : List RawNode) (acc : List RawReview × List String), k ∉ acc.2 →
      (acc.1.find? fun r => decide (recKey r = k)) = none →
      ((cs.foldl extractStep acc).1.find? fun r => decide (recKey r = k)) =
        (cs.find? fun c => decide (recKey (extractFields c) = k)).map extractFields := by
  intro cs
  induction cs with
  | nil => intro acc _ hf; simpa using hf
  | cons c cs ih =>
    intro acc hk hf
    rw [List.foldl_cons]
    by_cases hck : recKey (extractFields c) = k
    · have h : recKey (extractFields c) ∉ acc.2 := by rw [hck]; exact hk
      rw [show extractStep acc c =
          (acc.1 ++ [extractFields c], recKey (extractFields c) :: acc.2) from by
        simp [extractStep, h]]
      have hk2 : k ∈ recKey (extractFields c) :: acc.2 := hck ▸ List.mem_cons_self _ _
      rw [extractFold_find?_of_seen k cs _ hk2]
      simp [List.find?_append, hf, List.find?_cons, hck]
    · by_cases h : recKey (extractFields c) ∈ acc.2
      · rw [show extractStep acc c = acc from by simp [extractStep, h]]
        rw [ih acc hk hf]
        simp [List.find?_cons, hck]
      · rw [show extractStep acc c =
            (acc.1 ++ [extractFields c], recKey (extractFields c) :: acc.2) from by
          simp [extractStep, h]]
        have hk2 : k ∉ recKey (extractFields c) :: acc.2 := by
          intro hmem
          rcases List.mem_cons.mp hmem with h1 | h1
          · exact hck h1.symm
          · exact hk h1
        have hf2 : ((acc.1 ++ [extractFields c]).find?
            fun r => decide (recKey r = k)) = none := by
          simp [List.find?_append, hf, List.find?_cons, hck, Option.or]
        rw [ih _ hk2 hf2]
        simp [List.find?_cons, hck]

/-! ### File-system lemmas -/

theorem foldl_insert_mem :
    ∀ (l fs : List (List String)) (x : List String),
      x ∈ l ∨ x ∈ fs →
      x ∈ l.foldl (fun acc p => if p ∈ acc then acc else p :: acc) fs := by
  intro l
  induction l with
  | nil =>
    intro fs x hx
    rcases hx with h | h
    · cases h
    · exact h
  | cons p l ih =>
    intro fs x hx
    rw [List.foldl_cons]
    apply ih
    by_cases hp : p ∈ fs
    · rw [if_pos hp]
      rcases hx with h | h
      · rcases List.mem_cons.mp h with h1 | h1
        · exact Or.inr (h1 ▸ hp)
        · exact Or.inl h1
      · exact Or.inr h
    · rw [if_neg hp]
      rcases hx with h | h
      · rcases List.mem_cons.mp h with h1 | h1
        · exact Or.inr (h1 ▸ List.mem_cons_self _ _)
        · exact Or.inl h1
      · exact Or.inr (List.mem_cons_of_mem _ h)

theorem self_mem_pathInits (dir : List String) (hne : dir ≠ []) :
    dir ∈ pathInits dir := by
  unfold pathInits
  refine List.mem_filter.mpr ⟨(List.mem_inits dir dir).2 ⟨[], by simp⟩, by simp [hne]⟩

theorem mkdir_tt_exists_ok (fs : List (List String)) (dir : List String)
    (hout : dir ∉ fs) :
    ∃ fs2, mkdirModel true true fs dir = Except.ok fs2 ∧
      ∀ p ∈ pathInits dir, p ∈ fs2 := by
  refine ⟨(pathInits dir).foldl
      (fun acc p => if p ∈ acc then acc else p :: acc) fs, ?_, ?_⟩
  · simp [mkdirModel, hout]
  · intro p hp
    exact foldl_insert_mem _ fs p (Or.inl hp)

theorem mkdir_tt_existing (fs : List (List String)) (dir : List String)
    (hin : dir ∈ fs) : mkdirModel true true fs dir = Except.ok fs := by
  simp [mkdirModel, hin]

theorem mkdir_tt_mem (fs : List (List String)) (dir : List String)
    (fs2 : List (List String))
    (h : mkdirModel true true fs dir = Except.ok fs2) (hne : dir ≠ []) :
    dir ∈ fs2 := by
  by_cases hin : dir ∈ fs
  · rw [mkdir_tt_existing fs dir hin] at h
    injection h with h2
    exact h2 ▸ hin
  · have h2 : (Except.ok
        ((pathInits dir).foldl
          (fun acc p => if p ∈ acc then acc else p :: acc) fs) :
        Except Unit (List (List String))) = Except.ok fs2 := by
      rw [← h]; simp [mkdirModel, hin]
    injection h2 with h2
    rw [← h2]
    exact foldl_insert_mem _ fs dir (Or.inl (self_mem_pathInits dir hne))

/-! ## Claim theorems -/

/-- C3: a single collector iteration whose merge yields `new_count = 0`
(and hence leaves the accumulated list at its previous length, the loop
invariant `last_len = len(collected)` holding at every iteration entry)
halts the loop immediately — the result and the round count (one more
round) are independent of the remaining fuel and of every later round's
content.  In particular, when round 1 already yields zero newly-unique
records, the loop stops after round 1 with the empty list, for every
`maxRounds ≥ 1`. -/
theorem c3_stagnation_halts (found : Nat → List RawReview) :
    (∀ i fuel col seen, (mergeRound (found i) col seen).2.2 = 0 →
      scrollAux found i (fuel + 1) col seen col.length = (col, 1)) ∧
    (∀ m, 1 ≤ m → (mergeRound (found 0) [] []).2.2 = 0 →
      scroll_and_collect found m = [] ∧ scroll_rounds found m = 1) := by
  constructor
  · intro i fuel col seen hz
    exact scrollAux_stagnation found i fuel col seen hz
  · intro m hm hz
    obtain ⟨k, rfl⟩ : ∃ k, m = k + 1 := ⟨m - 1, by omega⟩
    have h := scrollAux_stagnation found 0 k [] [] hz
    simp only [List.length_nil] at h
    exact ⟨by simp [scroll_and_collect, h], by simp [scroll_rounds, h]⟩

/-- Witness for C3: with every round extracting nothing, `maxRounds = 3`
yields the empty list after exactly one round. -/
theorem c3_stagnation_halts_witness :
    scroll_and_collect (fun _ => ([] : List RawReview)) 3 = [] ∧
    scroll_rounds (fun _ => ([] : List RawReview)) 3 = 1 :=
  (c3_stagnation_halts (fun _ => [])).2 3 (by omega) rfl

/-- C4: the collector always executes at most `maxRounds` iterations,
whatever records every round keeps producing (stated for the top-level
entry state and for every intermediate state). -/
theorem c4_rounds_bounded (found : Nat → List RawReview) (m : Nat) :
    scroll_rounds found m ≤ m ∧
    ∀ i fuel col seen lastLen,
      (scrollAux found i fuel col seen lastLen).2 ≤ fuel :=
  ⟨scroll_rounds_le found m, fun i fuel col seen lastLen =>
    scrollAux_rounds_le found fuel i col seen lastLen⟩

/-- C5: from any collector state, the accumulated list only ever grows
by appending at the end — the previously collected records survive as a
prefix of the final list, so the length is monotone non-decreasing
across rounds, for all inputs. -/
theorem c5_monotone_accumulation (found : Nat → List RawReview)
    (fuel i : Nat) (col : List RawReview) (seen : List String)
    (lastLen : Nat) :
    (∃ t, (scrollAux found i fuel col seen lastLen).1 = col ++ t) ∧
    col.length ≤ (scrollAux found i fuel col seen lastLen).1.length := by
  rcases scrollAux_grows found fuel i col seen lastLen with ⟨t, ht⟩
  exact ⟨⟨t, ht⟩, by rw [ht]; simp⟩

/-- C1: for the Capterra and TrustRadius adapters, a collected record
whose raw date field parses to `d` survives the filter exactly when
`start <= d <= end` (in range it contributes its normalized copy to the
output; out of range it contributes nothing), while a record whose raw
date field does not parse always contributes its normalized copy. -/
theorem c1_range_filter (parse : String → Option Date) (s e : Date)
    (rs : List RawReview) (r : RawReview) (hr : r ∈ rs) :
    (∀ d, parse (orEmpty r.date) = some d → within_range d s e = true →
      ∃ c1 c2, capterraNormalizeOne parse s e r = some c1 ∧
        c1 ∈ scrape_capterra_filter parse s e rs ∧
        trustradiusNormalizeOne parse s e r = some c2 ∧
        c2 ∈ scrape_trustradius_filter parse s e rs) ∧
    (∀ d, parse (orEmpty r.date) = some d → within_range d s e = false →
      capterraNormalizeOne parse s e r = none ∧
      trustradiusNormalizeOne parse s e r = none) ∧
    (parse (orEmpty r.date) = none →
      ∃ c1 c2, capterraNormalizeOne parse s e r = some c1 ∧
        c1 ∈ scrape_capterra_filter parse s e rs ∧
        trustradiusNormalizeOne parse s e r = some c2 ∧
        c2 ∈ scrape_trustradius_filter parse s e rs) := by
  refine ⟨?_, ?_, ?_⟩
  · intro d hd hw
    have h1 : (capterraNormalizeOne parse s e r).isSome := by
      simp [capterraNormalizeOne, parse_date_safe, hd, hw]
    have h2 : (trustradiusNormalizeOne parse s e r).isSome := by
      simp [trustradiusNormalizeOne, parse_date_safe, hd, hw]
    obtain ⟨c1, hc1⟩ := Option.isSome_iff_exists.mp h1
    obtain ⟨c2, hc2⟩ := Option.isSome_iff_exists.mp h2
    exact ⟨c1, c2, hc1, List.mem_filterMap.mpr ⟨r, hr, hc1⟩,
      hc2, List.mem_filterMap.mpr ⟨r, hr, hc2⟩⟩
  · intro d hd hw
    constructor
    · simp [capterraNormalizeOne, parse_date_safe, hd, hw]
    · simp [trustradiusNormalizeOne, parse_date_safe, hd, hw]
  · intro hd
    have h1 : (capterraNormalizeOne parse s e r).isSome := by
      simp [capterraNormalizeOne, parse_date_safe, hd]
    have h2 : (trustradiusNormalizeOne parse s e r).isSome := by
      simp [trustradiusNormalizeOne, parse_date_safe, hd]
    obtain ⟨c1, hc1⟩ := Option.isSome_iff_exists.mp h1
    obtain ⟨c2, hc2⟩ := Option.isSome_iff_exists.mp h2
    exact ⟨c1, c2, hc1, List.mem_filterMap.mpr ⟨r, hr, hc1⟩,
      hc2, List.mem_filterMap.mpr ⟨r, hr, hc2⟩⟩

/-- Witness for C1: a record dated 2024-03-15 inside the range
2024-01-01..2024-06-30 survives both the Capterra and the TrustRadius
filter. -/
theorem c1_range_filter_witness :
    ∃ c1 c2, capterraNormalizeOne parseIso dStart dEnd sampleDated = some c1 ∧
      c1 ∈ scrape_capterra_filter parseIso dStart dEnd [sampleDated] ∧
      trustradiusNormalizeOne parseIso dStart dEnd sampleDated = some c2 ∧
      c2 ∈ scrape_trustradius_filter parseIso dStart dEnd [sampleDated] :=
  (c1_range_filter parseIso dStart dEnd [sampleDated] sampleDated
    (by simp)).1 ⟨2024, 3, 15⟩ rfl rfl

/-- C2: in the G2 adapter, the first 50 characters of the description
are tried as a date exactly when the raw date field fails to parse; a
record for which both parses fail is kept in the adapter's final output
(it also passes the second filter pass); and a record whose resolved
date parses to a value outside the range is dropped. -/
theorem c2_g2_fallback_policy (parse : String → Option Date) (s e : Date)
    (rs : List RawReview) (r : RawReview) (hr : r ∈ rs) :
    (parse (orEmpty r.date) = none →
      g2ResolvedDate parse r = parse (strTake (orEmpty r.description) 50)) ∧
    (parse (orEmpty r.date) = none →
      parse (strTake (orEmpty r.description) 50) = none →
      ∃ c, g2NormalizeOne parse s e r = some c ∧
        c ∈ scrape_g2_filter parse s e rs) ∧
    (∀ d, g2ResolvedDate parse r = some d → within_range d s e = false →
      g2NormalizeOne parse s e r = none) := by
  refine ⟨?_, ?_, ?_⟩
  · intro hd
    simp [g2ResolvedDate, parse_date_safe, hd]
  · intro hd hd2
    have hres : g2ResolvedDate parse r = none := by
      simp [g2ResolvedDate, parse_date_safe, hd, hd2]
    have h1 : g2NormalizeOne parse s e r = some
        { title := orEmpty r.title, description := orEmpty r.description,
          date := orEmpty r.date, rating := orEmpty r.rating,
          reviewer := orEmpty r.reviewer, source := "G2" } := by
      simp [g2NormalizeOne, hres]
    refine ⟨_, h1, List.mem_filter.mpr ⟨List.mem_filterMap.mpr ⟨r, hr, h1⟩, ?_⟩⟩
    by_cases hne : orEmpty r.date = ""
    · simp [g2SecondPass, hne]
    · simp [g2SecondPass, hne, parse_date_safe, hd]
  · intro d hd hw
    simp [g2NormalizeOne, hd, hw]

/-- Witness for C2: a record whose raw date and description prefix both
fail to parse is kept by the G2 adapter. -/
theorem c2_g2_fallback_policy_witness :
    ∃ c, g2NormalizeOne parseIso dStart dEnd sampleBad = some c ∧
      c ∈ scrape_g2_filter parseIso dStart dEnd [sampleBad] :=
  (c2_g2_fallback_policy parseIso dStart dEnd [sampleBad] sampleBad
    (by simp)).2.1 rfl rfl

/-- C6: within one extraction pass, records are deduplicated by the key
`(title + "|" + body[0:80])[0:200]`: every candidate key occurs exactly
once among the output records, and the record carrying it is the one
extracted from the first candidate with that key (first-seen wins). -/
theorem c6_extract_dedup_first_wins (nodes : List RawNode) (n : RawNode)
    (hn : n ∈ nodes.filter candidateOk) :
    ((extract_reviews_from_dom nodes).countP
        fun r => decide (recKey r = recKey (extractFields n))) = 1 ∧
    ((extract_reviews_from_dom nodes).find?
        fun r => decide (recKey r = recKey (extractFields n))) =
      ((nodes.filter candidateOk).find?
          fun c => decide (recKey (extractFields c) = recKey (extractFields n))).map
        extractFields := by
  constructor
  · show (((nodes.filter candidateOk).foldl extractStep ([], [])).1.countP _) = 1
    rw [extractFold_countP_of_unseen _ (nodes.filter candidateOk) ([], [])
      (by simp)]
    have hany : (nodes.filter candidateOk).any
        (fun c => decide (recKey (extractFields c) = recKey (extractFields n)))
          = true :=
      List.any_eq_true.mpr ⟨n, hn, by simp⟩
    simp [hany]
  · exact extractFold_find?_of_unseen _ (nodes.filter candidateOk) ([], [])
      (by simp) rfl

/-- Witness for C6: two candidate nodes extracting the same title and
body collapse to a single record, the first node's one. -/
theorem c6_extract_dedup_first_wins_witness :
    ((extract_reviews_from_dom [nodeA, nodeB]).countP
        fun r => decide (recKey r = recKey (extractFields nodeB))) = 1 ∧
    ((extract_reviews_from_dom [nodeA, nodeB]).find?
        fun r => decide (recKey r = recKey (extractFields nodeB))) =
      (([nodeA, nodeB].filter candidateOk).find?
          fun c => decide (recKey (extractFields c) = recKey (extractFields nodeB))).map
        extractFields :=
  c6_extract_dedup_first_wins [nodeA, nodeB] nodeB (by decide)

/-- C7: a candidate node whose visible text has 49 characters or fewer
never contributes a record — deleting it from the node list, at any
position, leaves the extractor output unchanged. -/
theorem c7_short_nodes_excluded (l1 l2 : List RawNode) (n : RawNode)
    (hn : n.innerText.length ≤ 49) :
    extract_reviews_from_dom (l1 ++ n :: l2) =
      extract_reviews_from_dom (l1 ++ l2) := by
  have hok : candidateOk n = false := by
    unfold candidateOk
    rw [if_pos (by omega)]
  simp [extract_reviews_from_dom, List.filter_append, List.filter_cons, hok]

/-- Witness for C7: a synthetic 49-character node yields no extractor
output. -/
theorem c7_short_nodes_excluded_witness :
    node49.innerText.length ≤ 49 ∧
    extract_reviews_from_dom [node49] = extract_reviews_from_dom [] :=
  ⟨by decide, c7_short_nodes_excluded [] [] node49 (by decide)⟩

/-! ### Adapter output inversion lemmas -/

theorem capterraNormalizeOne_inv (parse : String → Option Date) (s e : Date)
    (r : RawReview) (c : Review)
    (h : capterraNormalizeOne parse s e r = some c) :
    c.title = orEmpty r.title ∧ c.description = orEmpty r.description ∧
    c.rating = orEmpty r.rating ∧ c.reviewer = orEmpty r.reviewer ∧
    c.source = "Capterra" ∧
    (c.date = orEmpty r.date ∨ ∃ d, c.date = iso d) := by
  unfold capterraNormalizeOne at h
  cases hdt : parse_date_safe parse (orEmpty r.date) with
  | none =>
    simp only [hdt] at h
    have := Option.some.inj h
    subst this
    simp
  | some d =>
    simp only [hdt] at h
    split at h
    · have := Option.some.inj h
      subst this
      exact ⟨rfl, rfl, rfl, rfl, rfl, Or.inr ⟨d, rfl⟩⟩
    · exact absurd h (by simp)

theorem trustradiusNormalizeOne_inv (parse : String → Option Date) (s e : Date)
    (r : RawReview) (c : Review)
    (h : trustradiusNormalizeOne parse s e r = some c) :
    c.title = orEmpty r.title ∧ c.description = orEmpty r.description ∧
    c.rating = orEmpty r.rating ∧ c.reviewer = orEmpty r.reviewer ∧
    c.source = "TrustRadius" ∧
    (c.date = orEmpty r.date ∨ ∃ d, c.date = iso d) := by
  unfold trustradiusNormalizeOne at h
  cases hdt : parse_date_safe parse (orEmpty r.date) with
  | none =>
    simp only [hdt] at h
    have := Option.some.inj h
    subst this
    simp
  | some d =>
    simp only [hdt] at h
    split at h
    · have := Option.some.inj h
      subst this
      exact ⟨rfl, rfl, rfl, rfl, rfl, Or.inr ⟨d, rfl⟩⟩
    · exact absurd h (by simp)

theorem g2NormalizeOne_inv (parse : String → Option Date) (s e : Date)
    (r : RawReview) (c : Review)
    (h : g2NormalizeOne parse s e r = some c) :
    c.title = orEmpty r.title ∧ c.description = orEmpty r.description ∧
    c.rating = orEmpty r.rating ∧ c.reviewer = orEmpty r.reviewer ∧
    c.source = "G2" ∧
    (c.date = orEmpty r.date ∨ ∃ d, c.date = iso d) := by
  unfold g2NormalizeOne at h
  cases hdt : g2ResolvedDate parse r with
  | none =>
    simp only [hdt] at h
    have := Option.some.inj h
    subst this
    simp
  | some d =>
    simp only [hdt] at h
    split at h
    · have := Option.some.inj h
      subst this
      exact ⟨rfl, rfl, rfl, rfl, rfl, Or.inr ⟨d, rfl⟩⟩
    · exact absurd h (by simp)

/-- A successful `run_scraper` obtained its resulting file system from
`mkdir(parents=True, exist_ok=True)` on the output directory. -/
theorem run_scraper_ok_mkdir (env : Env) (company startS endS source : String)
    (outdir : List String) (fs2 : List (List String)) (reviews : List Review)
    (hok : run_scraper env company startS endS source outdir =
      Except.ok (fs2, reviews)) :
    mkdirModel true true env.fs outdir = Except.ok fs2 := by
  simp only [run_scraper] at hok
  split at hok <;> try exact Except.noConfusion hok
  split at hok <;> try exact Except.noConfusion hok
  split at hok <;> try exact Except.noConfusion hok
  split at hok <;> try exact Except.noConfusion hok
  injection hok with hpair
  rw [Prod.mk.injEq] at hpair
  obtain ⟨hfs, hrv⟩ := hpair
  rw [← hfs]
  assumption

/-- C8 counterexample: invoking the CLI with `--source foo` terminates
the process with exit code 2 — `argparse` rejects the invalid choice —
not with exit code 1 as claimed.  No output file is written. -/
theorem c8_counterexample :
    main_model envOk "acme" "2024-01-01" "2024-06-30" "foo" ["out"] =
      ⟨2, false⟩ ∧
    (main_model envOk "acme" "2024-01-01" "2024-06-30" "foo" ["out"]).exitCode
      ≠ 1 :=
  ⟨rfl, by decide⟩

/-- C8 (amended): invoking the CLI with a `--source` value outside the
accepted choices terminates the process with exit code 2 (`argparse`
rejects the invalid choice before the scraper runs) and writes no
output file. -/
theorem c8_invalid_source_exits_two (env : Env)
    (company startS endS source : String) (outdir : List String)
    (h : source ∉ cli_sources) :
    main_model env company startS endS source outdir = ⟨2, false⟩ := by
  simp [main_model, h]

/-- Witness for the amended C8: `--source foo` yields exit code 2 and
no file. -/
theorem c8_invalid_source_exits_two_witness :
    "foo" ∉ cli_sources ∧
    main_model envOk "acme" "2024-01-01" "2024-06-30" "foo" ["out2"] =
      ⟨2, false⟩ :=
  ⟨by decide, c8_invalid_source_exits_two envOk "acme" "2024-01-01"
    "2024-06-30" "foo" ["out2"] (by decide)⟩

/-- C9: every record emitted by any of the three adapters carries
exactly the six fields title, description, date, rating, reviewer,
source, in that order, and every field is a string obtained from the
collected record with missing/None values coerced to `""` (the date
possibly replaced by its ISO rendering); the source tag names the
emitting adapter. -/
theorem c9_six_string_fields (parse : String → Option Date) (s e : Date)
    (rs : List RawReview) (r : Review) :
    (r ∈ scrape_g2_filter parse s e rs →
      (reviewDict r).map Prod.fst =
        ["title", "description", "date", "rating", "reviewer", "source"] ∧
      ∃ raw ∈ rs, r.title = orEmpty raw.title ∧
        r.description = orEmpty raw.description ∧
        r.rating = orEmpty raw.rating ∧ r.reviewer = orEmpty raw.reviewer ∧
        r.source = "G2" ∧ (r.date = orEmpty raw.date ∨ ∃ d, r.date = iso d)) ∧
    (r ∈ scrape_capterra_filter parse s e rs →
      (reviewDict r).map Prod.fst =
        ["title", "description", "date", "rating", "reviewer", "source"] ∧
      ∃ raw ∈ rs, r.title = orEmpty raw.title ∧
        r.description = orEmpty raw.description ∧
        r.rating = orEmpty raw.rating ∧ r.reviewer = orEmpty raw.reviewer ∧
        r.source = "Capterra" ∧
        (r.date = orEmpty raw.date ∨ ∃ d, r.date = iso d)) ∧
    (r ∈ scrape_trustradius_filter parse s e rs →
      (reviewDict r).map Prod.fst =
        ["title", "description", "date", "rating", "reviewer", "source"] ∧
      ∃ raw ∈ rs, r.title = orEmpty raw.title ∧
        r.description = orEmpty raw.description ∧
        r.rating = orEmpty raw.rating ∧ r.reviewer = orEmpty raw.reviewer ∧
        r.source = "TrustRadius" ∧
        (r.date = orEmpty raw.date ∨ ∃ d, r.date = iso d)) := by
  refine ⟨?_, ?_, ?_⟩
  · intro hm
    obtain ⟨hm1, _⟩ := List.mem_filter.mp hm
    obtain ⟨raw, hraw, heq⟩ := List.mem_filterMap.mp hm1
    exact ⟨by simp [reviewDict], raw, hraw,
      g2NormalizeOne_inv parse s e raw r heq⟩
  · intro hm
    obtain ⟨raw, hraw, heq⟩ := List.mem_filterMap.mp hm
    exact ⟨by simp [reviewDict], raw, hraw,
      capterraNormalizeOne_inv parse s e raw r heq⟩
  · intro hm
    obtain ⟨raw, hraw, heq⟩ := List.mem_filterMap.mp hm
    exact ⟨by simp [reviewDict], raw, hraw,
      trustradiusNormalizeOne_inv parse s e raw r heq⟩

/-- Witness for C9: the record the Capterra adapter emits for
`sampleDated` has the six string fields, coerced from the collected
record, with source tag "Capterra". -/
theorem c9_six_string_fields_witness :
    (reviewDict capOut).map Prod.fst =
      ["title", "description", "date", "rating", "reviewer", "source"] ∧
    ∃ raw ∈ [sampleDated], capOut.title = orEmpty raw.title ∧
      capOut.description = orEmpty raw.description ∧
      capOut.rating = orEmpty raw.rating ∧
      capOut.reviewer = orEmpty raw.reviewer ∧
      capOut.source = "Capterra" ∧
      (capOut.date = orEmpty raw.date ∨ ∃ d, capOut.date = iso d) :=
  (c9_six_string_fields parseIso dStart dEnd [sampleDated] capOut).2.1
    (by decide)

/-- C10: a successful run's resulting file system contains the output
directory (`mkdir(parents=True, exist_ok=True)` ran before the file was
written); when the directory was missing, it is created together with
every missing parent, and an already-existing output directory does not
cause a failure. -/
theorem c10_outdir_created (env : Env) (company startS endS source : String)
    (outdir : List String) :
    (∀ fs2 reviews,
      run_scraper env company startS endS source outdir =
        Except.ok (fs2, reviews) →
      outdir ≠ [] → outdir ∈ fs2) ∧
    (outdir ∉ env.fs →
      ∃ fs2, mkdirModel true true env.fs outdir = Except.ok fs2 ∧
        ∀ p ∈ pathInits outdir, p ∈ fs2) ∧
    (outdir ∈ env.fs → mkdirModel true true env.fs outdir = Except.ok env.fs) :=
  ⟨fun fs2 reviews hok hne =>
    mkdir_tt_mem env.fs outdir fs2
      (run_scraper_ok_mkdir env company startS endS source outdir fs2 reviews hok)
      hne,
   fun h => mkdir_tt_exists_ok env.fs outdir h,
   fun h => mkdir_tt_existing env.fs outdir h⟩

/-- Witness for C10: a successful G2 run with output directory
`out/sub` on an empty disk leaves both `out/sub` and `out` existing;
creating a directory that already exists succeeds and changes
nothing. -/
theorem c10_outdir_created_witness :
    (["out", "sub"] ∈ ([["out", "sub"], ["out"]] : List (List String))) ∧
    (∃ fsB, mkdirModel true true ([["made"]] : List (List String))
        ["d1", "d2"] = Except.ok fsB ∧
      ∀ p ∈ pathInits ["d1", "d2"], p ∈ fsB) ∧
    mkdirModel true true ([["e"]] : List (List String)) ["e"] =
      Except.ok [["e"]] :=
  ⟨(c10_outdir_created envOk "acme" "2024-01-01" "2024-06-30" "g2"
      ["out", "sub"]).1 [["out", "sub"], ["out"]] [] rfl (by decide),
   (c10_outdir_created ⟨parseIso, fun _ => true, fun _ => [], [["made"]]⟩
      "x" "a" "b" "g2" ["d1", "d2"]).2.1 (by decide),
   (c10_outdir_created ⟨parseIso, fun _ => true, fun _ => [], [["e"]]⟩
      "x" "a" "b" "g2" ["e"]).2.2 (by decide)⟩

end ScrapeReviews
